import Mathlib

/-!
# Verification of the winaws provisioning tool against its specification

Shallow embedding of the decision-relevant parts of the `winaws` command-line
tool (`src/winaws/core/password.py`, `core/keypair.py`, `core/cloudformation.py`,
`core/ec2.py`, and the `start`/`stop`/`password` command modules), together with
theorems settling the frozen claims about it.

Modelling conventions:
* Cloud-provider responses are an environment parameter: a function from the
  poll index to the response the provider gives on that call.  A call that
  raises an exception in Python is a response constructor carrying the message.
* The cryptographic primitives (`base64.b64decode`, RSA PKCS#1 v1.5 decryption,
  UTF-8 decoding, PEM loading, file reads) live in external libraries; they are
  fields of a `CryptoEnv` record, each returning `Option` (`none` = the Python
  call raised).  `decrypt_password` composes them exactly in source order.
* Python `while time.time() - start_time < max_wait` loops are embedded with a
  fuel parameter; `none` means the fuel ran out (the source loop would still be
  running).  Time is idealised: provider calls are instantaneous and each
  `time.sleep(t)` advances the clock by `t` seconds.
* Each distinct exit path of a Python function maps to a distinct constructor
  of an outcome type; the correspondence with the Python return value (which
  collapses every failure to `None`) is given by a `retval` function, and the
  distinct console error message printed on each failing path is recorded by
  `failureMessage`.
-/

namespace WinAws

/-! ## Password Retrieval Engine (`src/winaws/core/password.py`) -/

/-- External cryptographic and filesystem primitives used by
`decrypt_password`.  Each returns `none` where the corresponding Python
library call would raise an exception (caught by the `except` clause). -/
structure CryptoEnv where
  /-- `Path(private_key_path).read_bytes()` : may raise if unreadable. -/
  readKeyFile : String → Option String
  /-- `serialization.load_pem_private_key(pem, password=None)`. -/
  loadPemPrivateKey : String → Option String
  /-- `base64.b64decode(encrypted_password)` : string to byte list. -/
  b64decode : String → Option (List Nat)
  /-- `private_key.decrypt(bytes, padding.PKCS1v15())` : key, ciphertext
  bytes to plaintext bytes; `none` on wrong key or padding error. -/
  rsaDecryptPKCS1v15 : String → List Nat → Option (List Nat)
  /-- `decrypted_bytes.decode(utf8)` : `none` on invalid UTF-8. -/
  utf8decode : List Nat → Option String

/-- `decrypt_password(encrypted_password, private_key_path)`: load the PEM
private key from the file, base64-decode the ciphertext, RSA-decrypt it with
PKCS#1 v1.5 padding, decode the plaintext bytes as UTF-8.  The whole body is
one `try` block returning `None` on any exception, embedded as `Option.bind`
chaining in the exact source order. -/
def decrypt_password (env : CryptoEnv) (encrypted_password : String)
    (private_key_path : String) : Option String :=
  match env.readKeyFile private_key_path with
  | none => none
  | some pem =>
    match env.loadPemPrivateKey pem with
    | none => none
    | some key =>
      match env.b64decode encrypted_password with
      | none => none
      | some encrypted_bytes =>
        match env.rsaDecryptPKCS1v15 key encrypted_bytes with
        | none => none
        | some decrypted_bytes => env.utf8decode decrypted_bytes

/-- Response of one `ec2.get_password_data(InstanceId=...)` call:
either a normal response whose `PasswordData` field is the given string
(possibly empty), or a raised exception with the given message. -/
inductive PollResponse where
  | ok (passwordData : String)
  | error (msg : String)
deriving DecidableEq, Repr

/-- The distinct exit paths of `get_instance_password`. -/
inductive PwOutcome where
  /-- `return password` : decryption succeeded. -/
  | success (pwd : String)
  /-- `return None` after printing `Failed to decrypt password`. -/
  | failDecrypt
  /-- `return None` after printing `Timeout waiting for password data ...`. -/
  | failTimeout
  /-- `return None` after printing `Error retrieving password: ...`:
  the provider call raised. -/
  | failProviderError (msg : String)
deriving DecidableEq, Repr

/-- The Python return value (`Optional[str]`) of each outcome: every failure
path returns `None`. -/
def PwOutcome.retval : PwOutcome → Option String
  | .success pwd => some pwd
  | _ => none

/-- The distinguishing console error message printed on each failing exit
path of `get_instance_password` (`none` on success, where no error prints). -/
def PwOutcome.failureMessage : PwOutcome → Option String
  | .success _ => none
  | .failDecrypt => some "Failed to decrypt password"
  | .failTimeout => some "Timeout waiting for password data"
  | .failProviderError _ => some "Error retrieving password"

/-- Observable result of one run of `get_instance_password`. -/
structure PwRun where
  outcome : PwOutcome
  /-- `time.time() - start_time` at the moment of return (idealised: the sum
  of the `time.sleep(poll_interval)` calls executed). -/
  elapsed : Nat
  /-- Number of `ec2.get_password_data` calls issued. -/
  polls : Nat
  /-- The `(encrypted_password, private_key_path)` argument pairs of the
  `decrypt_password` calls issued during the run, in order. -/
  decryptAttempts : List (String × String)
deriving DecidableEq, Repr

/-- The `while time.time() - start_time < max_wait` loop of
`get_instance_password`.  `provider k` is the provider's response to the
`k`-th `get_password_data` call (0-based, counted from the start of the run);
`elapsed` is the clock at the top of the loop; `fuel` bounds the number of
iterations (`none` = fuel exhausted, i.e. the source loop is still running). -/
def pollLoop (env : CryptoEnv) (provider : Nat → PollResponse)
    (private_key_path : String) (max_wait poll_interval : Nat)
    (elapsed k : Nat) : Nat → Option PwRun
  | 0 => none
  | fuel + 1 =>
    if elapsed < max_wait then
      match provider k with
      | .error msg => some ⟨.failProviderError msg, elapsed, k + 1, []⟩
      | .ok password_data =>
        if password_data = "" then
          pollLoop env provider private_key_path max_wait poll_interval
            (elapsed + poll_interval) (k + 1) fuel
        else
          match decrypt_password env password_data private_key_path with
          | some password =>
            some ⟨.success password, elapsed, k + 1,
              [(password_data, private_key_path)]⟩
          | none =>
            some ⟨.failDecrypt, elapsed, k + 1,
              [(password_data, private_key_path)]⟩
    else
      some ⟨.failTimeout, elapsed, k, []⟩

/-- `get_instance_password(region, instance_id, private_key_path, max_wait,
poll_interval)`: poll `get_password_data` until data is non-empty, then
decrypt it once; empty data sleeps `poll_interval` and re-polls while within
`max_wait`. -/
def get_instance_password (env : CryptoEnv) (provider : Nat → PollResponse)
    (private_key_path : String) (max_wait poll_interval fuel : Nat) :
    Option PwRun :=
  pollLoop env provider private_key_path max_wait poll_interval 0 0 fuel

/-- `password_available(region, instance_id)`: single non-blocking probe. -/
def password_available (response : PollResponse) : Bool :=
  match response with
  | .ok password_data => password_data ≠ ""
  | .error _ => false

/-! ## Key Material Manager (`src/winaws/core/keypair.py`) -/

/-- `get_key_path(key_name)`: `~/.winaws/keys/<key_name>.pem` (the home
directory is abstracted away; only the naming convention matters). -/
def get_key_path (key_name : String) : String :=
  ".winaws/keys/" ++ key_name ++ ".pem"

/-- The two mutually independent sides of a key pair for a fixed key name. -/
structure KpState where
  /-- `get_key_path(key_name).exists()` : the local private-key file. -/
  localExists : Bool
  /-- The provider-side registration: `describe_key_pairs(KeyNames=[name])`
  succeeds iff this is `true`, raising `ClientError` otherwise. -/
  awsRegistered : Bool
deriving DecidableEq, Repr

/-- Which fallible step of `create_key_pair`, if any, raises: the
`ec2.create_key_pair` call or the `key_path.write_text` call.  (The
`describe_key_pairs` and `delete_key_pair` errors are handled inline by the
source and are determined by `KpState`.) -/
inductive KpFailure where
  | noFailure
  | createFails
  | writeFails
deriving DecidableEq, Repr

/-- Provider and filesystem calls issued by `create_key_pair`, in order. -/
inductive KpAction where
  /-- `ec2.describe_key_pairs(KeyNames=[key_name])`. -/
  | describeAws
  /-- `key_path.unlink()` : delete the stale local file. -/
  | unlinkLocal
  /-- `ec2.delete_key_pair(KeyName=key_name)`. -/
  | deleteAws
  /-- `ec2.create_key_pair(KeyName=key_name)`. -/
  | createAws
  /-- `key_path.write_text(private_key)` then `chmod 0o600`. -/
  | writeLocal
deriving DecidableEq, Repr

/-- Result of `create_key_pair`: the Python return value (path or `None`),
the key-pair state after the call, and the calls issued. -/
structure KpRun where
  result : Option String
  final : KpState
  actions : List KpAction
deriving DecidableEq, Repr

/-- The unconditional tail of `create_key_pair` (everything after the
`if key_path.exists()` block): delete any stale provider registration
(ignoring `ClientError`), create a fresh pair, persist the private key. -/
def create_key_pair_fresh (key_name : String) (st : KpState)
    (fail : KpFailure) (pre : List KpAction) : KpRun :=
  let st1 : KpState := { st with awsRegistered := false }
  match fail with
  | .createFails => ⟨none, st1, pre ++ [.deleteAws, .createAws]⟩
  | .writeFails =>
    ⟨none, { st1 with awsRegistered := true },
      pre ++ [.deleteAws, .createAws, .writeLocal]⟩
  | .noFailure =>
    ⟨some (get_key_path key_name), ⟨true, true⟩,
      pre ++ [.deleteAws, .createAws, .writeLocal]⟩

/-- `create_key_pair(region, key_name)`: if the local file exists, probe the
provider registration; present → reuse (return the existing path); absent
(`ClientError`) → unlink the local file and fall through.  Then delete any
existing provider registration (ignore `ClientError`), create a fresh pair
and save the private key with owner-only permissions.  Any uncaught
exception (`create` or `write` failing) returns `None`. -/
def create_key_pair (key_name : String) (st : KpState)
    (fail : KpFailure) : KpRun :=
  if st.localExists then
    if st.awsRegistered then
      ⟨some (get_key_path key_name), st, [.describeAws]⟩
    else
      create_key_pair_fresh key_name { st with localExists := false } fail
        [.describeAws, .unlinkLocal]
  else
    create_key_pair_fresh key_name st fail []

/-! ## Stack deletion wait loop (`src/winaws/core/cloudformation.py`) -/

/-- Response of one `cfn.describe_stacks(StackName=...)` call inside
`wait_for_stack_deletion`: a stack whose `StackStatus` is the given string,
a raised `ClientError` with the given message, or any other raised
exception. -/
inductive DescribeResponse where
  | status (s : String)
  | clientError (msg : String)
  | otherError (msg : String)
deriving DecidableEq, Repr

/-- Whether the character list `text` begins with `pat`. -/
def charsStartWith : List Char → List Char → Bool
  | [], _ => true
  | _ :: _, [] => false
  | p :: ps, t :: ts => p = t && charsStartWith ps ts

/-- Whether `pat` occurs as a contiguous run inside `text`. -/
def charsContain : List Char → List Char → Bool
  | [], pat => pat.isEmpty
  | t :: ts, pat => charsStartWith pat (t :: ts) || charsContain ts pat

/-- Python `'does not exist' in str(e)` : substring containment. -/
def containsSubstr (s pat : String) : Bool :=
  charsContain s.data pat.data

/-- The distinct exit paths of `wait_for_stack_deletion`. -/
inductive DelOutcome where
  /-- `return True` : describe raised `ClientError` containing
  `does not exist`. -/
  | deleted
  /-- `return False` after `print_stack_events(..., limit=10)` : status was
  `DELETE_FAILED`; carries the events surfaced. -/
  | deleteFailed (surfaced : List String)
  /-- `return False` : describe raised something not recognised as
  not-found. -/
  | describeError (msg : String)
  /-- `return False` : the loop exceeded `timeout`. -/
  | timedOut
deriving DecidableEq, Repr

/-- The Python return value (`bool`) of each `wait_for_stack_deletion`
exit path. -/
def DelOutcome.retval : DelOutcome → Bool
  | .deleted => true
  | _ => false

/-- Observable result of one run of `wait_for_stack_deletion`. -/
structure DelRun where
  outcome : DelOutcome
  elapsed : Nat
  /-- Number of `describe_stacks` calls issued. -/
  polls : Nat
deriving DecidableEq, Repr

/-- `print_stack_events(region, stack_name, limit)`: takes the first `limit`
entries of `response['StackEvents']` (the provider returns events most
recent first). -/
def print_stack_events (events : List String) (limit : Nat) : List String :=
  events.take limit

/-- The `while time.time() - start_time < timeout` loop of
`wait_for_stack_deletion`: a `DELETE_FAILED` status surfaces the 10 most
recent stack events and returns `False`; any other status sleeps 10 seconds
and re-polls; a `ClientError` whose text contains `does not exist` returns
`True`; any other `ClientError` or exception returns `False`. -/
def deletionLoop (provider : Nat → DescribeResponse) (events : List String)
    (timeout : Nat) (elapsed k : Nat) : Nat → Option DelRun
  | 0 => none
  | fuel + 1 =>
    if elapsed < timeout then
      match provider k with
      | .status s =>
        if s = "DELETE_FAILED" then
          some ⟨.deleteFailed (print_stack_events events 10), elapsed, k + 1⟩
        else
          deletionLoop provider events timeout (elapsed + 10) (k + 1) fuel
      | .clientError msg =>
        if containsSubstr msg "does not exist" then
          some ⟨.deleted, elapsed, k + 1⟩
        else
          some ⟨.describeError msg, elapsed, k + 1⟩
      | .otherError msg => some ⟨.describeError msg, elapsed, k + 1⟩
    else
      some ⟨.timedOut, elapsed, k⟩

/-- `wait_for_stack_deletion(region, stack_name, timeout=600)`. -/
def wait_for_stack_deletion (provider : Nat → DescribeResponse)
    (events : List String) (timeout fuel : Nat) : Option DelRun :=
  deletionLoop provider events timeout 0 0 fuel

/-! ## Instance listing (`src/winaws/core/ec2.py`) -/

/-- A provider-side EC2 instance, restricted to the fields the listing
filters inspect. -/
structure Ec2Instance where
  instanceId : String
  state : String
  tags : List (String × String)
deriving DecidableEq, Repr

/-- Modelled provider-side semantics of one `describe_instances` filter
(standard EC2 filter semantics, restricted to the two filters this code
passes): `instance-state-name` matches when the instance state is among the
values; the `tag:ManagedBy` filter matches when some tag with key
`ManagedBy` has a value among the values. -/
def matchesFilter (inst : Ec2Instance) (f : String × List String) : Bool :=
  if f.1 = "instance-state-name" then
    f.2.contains inst.state
  else if f.1 = "tag:ManagedBy" then
    inst.tags.any fun t => t.1 = "ManagedBy" && f.2.contains t.2
  else
    false

/-- Modelled provider-side semantics of
`ec2.describe_instances(Filters=...)`: the instances matching every
filter. -/
def describe_instances_filtered (all : List Ec2Instance)
    (filters : List (String × List String)) : List Ec2Instance :=
  all.filter fun inst => filters.all (matchesFilter inst)

/-- `list_managed_instances(region)`: `describe_instances` filtered by
`tag:ManagedBy = winaws` and
`instance-state-name in [pending, running, stopping, stopped]`. -/
def list_managed_instances (all : List Ec2Instance) : List Ec2Instance :=
  describe_instances_filtered all
    [("tag:ManagedBy", ["winaws"]),
     ("instance-state-name", ["pending", "running", "stopping", "stopped"])]

/-! ## Command layer (`src/winaws/commands/start.py`, `stop.py`,
`password.py`) -/

/-- Exit status of a command path: normal return or `typer.Exit(1)`. -/
inductive CmdOutcome where
  | success
  | failure
deriving DecidableEq, Repr

/-- The fixed ordered probe list the commands try when `--region` is not
supplied (`for test_region in [...]` in `start.py`, `stop.py`,
`password.py`). -/
def default_region_probe_list : List String :=
  ["us-east-1", "us-west-2", "eu-west-1", "ap-southeast-1"]

/-- The `for test_region in [...]` probe: return the first region of the
list where `get_instance_info` finds the instance (`found r = true`),
else `none`. -/
def probe_regions (found : String → Bool) : List String → Option String
  | [] => none
  | r :: rs => if found r then some r else probe_regions found rs

/-- The region-resolution phase shared by `start`, `stop` and `password`
(given that an instance id was supplied): an explicit `--region` is used as
is; otherwise the fixed probe list is tried in order; `none` means the
command prints `Could not determine instance region` and exits 1. -/
def resolve_region (region : Option String) (found : String → Bool) :
    Option String :=
  match region with
  | some r => some r
  | none => probe_regions found default_region_probe_list

/-- The state-check-and-act tail of the `start` command (after instance
info is fetched): `running` → success with no provider call; any state
other than `stopped`/`stopping` → exit 1 with no provider call; otherwise
issue `start_instances` (whose success is `callOk`).  Returns the outcome
and whether a provider start call was issued. -/
def start_state_check (state : String) (callOk : Bool) :
    CmdOutcome × Bool :=
  if state = "running" then
    (.success, false)
  else if ¬ (state = "stopped" ∨ state = "stopping") then
    (.failure, false)
  else if callOk then (.success, true) else (.failure, true)

/-- The state-check-and-act tail of the `stop` command: `stopped` → success
with no provider call; any state other than `running`/`pending` → exit 1
with no provider call; otherwise issue `stop_instances`. -/
def stop_state_check (state : String) (callOk : Bool) :
    CmdOutcome × Bool :=
  if state = "stopped" then
    (.success, false)
  else if ¬ (state = "running" ∨ state = "pending") then
    (.failure, false)
  else if callOk then (.success, true) else (.failure, true)

/-- The private-key lookup of the `password` command: try
`get_key_path("winaws-" + instance_name)`, then `get_key_path(key_name)`;
if neither file exists, print `Private key not found` and exit 1
(`none`). -/
def password_key_lookup (fileExists : String → Bool)
    (instance_name key_name : String) : Option String :=
  let p1 := get_key_path ("winaws-" ++ instance_name)
  if fileExists p1 then some p1
  else
    let p2 := get_key_path key_name
    if fileExists p2 then some p2 else none

/-! ## Concrete fixtures used to instantiate the theorems -/

/-- Fixture: a crypto environment in which the key file `k.pem` holds a
loadable private key and the ciphertext `QUJD` decrypts to `hi`; everything
else fails. -/
def testEnv : CryptoEnv where
  readKeyFile := fun p => if p = "k.pem" then some "PEM" else none
  loadPemPrivateKey := fun pem => if pem = "PEM" then some "KEY" else none
  b64decode := fun c => if c = "QUJD" then some [0, 1] else none
  rsaDecryptPKCS1v15 := fun key bs =>
    if key = "KEY" ∧ bs = [0, 1] then some [104, 105] else none
  utf8decode := fun bs => if bs = [104, 105] then some "hi" else none

/-! ## Lemmas about the password polling loop -/

theorem pollLoop_decryptAttempts (env : CryptoEnv)
    (provider : Nat → PollResponse) (path : String) (mw iv : Nat) :
    ∀ fuel elapsed k run,
      pollLoop env provider path mw iv elapsed k fuel = some run →
      run.decryptAttempts.length ≤ 1 ∧
        ∀ a ∈ run.decryptAttempts, a.2 = path := by
  intro fuel
  induction fuel with
  | zero =>
    intro elapsed k run h
    simp [pollLoop] at h
  | succ fuel ih =>
    intro elapsed k run h
    rw [pollLoop] at h
    split at h
    · split at h
      · injection h with h
        subst h
        simp
      · split at h
        · exact ih _ _ _ h
        · split at h <;>
            (injection h with h; subst h; simp)
    · injection h with h
      subst h
      simp

theorem pollLoop_timeout (env : CryptoEnv)
    (provider : Nat → PollResponse) (path : String) (mw iv : Nat) :
    ∀ fuel elapsed k run,
      pollLoop env provider path mw iv elapsed k fuel = some run →
      run.outcome = .failTimeout →
      mw ≤ run.elapsed ∧ k ≤ run.polls ∧
        ∀ j, k ≤ j → j < run.polls → provider j = .ok "" := by
  intro fuel
  induction fuel with
  | zero =>
    intro elapsed k run h
    simp [pollLoop] at h
  | succ fuel ih =>
    intro elapsed k run h hout
    rw [pollLoop] at h
    split at h
    · split at h
      · injection h with h
        subst h
        simp at hout
      · rename_i pd hpd
        split at h
        · rename_i hempty
          obtain ⟨h1, h2, h3⟩ := ih _ _ _ h hout
          refine ⟨h1, by omega, ?_⟩
          intro j hj1 hj2
          rcases Nat.eq_or_lt_of_le hj1 with rfl | hlt
          · rw [hpd, hempty]
          · exact h3 j hlt hj2
        · split at h <;>
            (injection h with h; subst h; simp at hout)
    · rename_i hge
      injection h with h
      subst h
      dsimp only
      exact ⟨by omega, le_refl _, fun j hj1 hj2 => absurd hj2 (by omega)⟩

theorem pollLoop_success (env : CryptoEnv)
    (provider : Nat → PollResponse) (path : String) (mw iv : Nat) :
    ∀ fuel elapsed k run pwd,
      pollLoop env provider path mw iv elapsed k fuel = some run →
      run.outcome = .success pwd →
      ∃ pd, pd ≠ "" ∧ provider (run.polls - 1) = .ok pd ∧
        decrypt_password env pd path = some pwd ∧
        run.decryptAttempts = [(pd, path)] ∧ run.elapsed < mw := by
  intro fuel
  induction fuel with
  | zero =>
    intro elapsed k run pwd h
    simp [pollLoop] at h
  | succ fuel ih =>
    intro elapsed k run pwd h hout
    rw [pollLoop] at h
    split at h
    · split at h
      · injection h with h
        subst h
        simp at hout
      · rename_i pd hpd
        split at h
        · exact ih _ _ _ _ h hout
        · rename_i hne
          split at h
          · rename_i pw hdec
            injection h with h
            subst h
            dsimp only at hout ⊢
            injection hout with hout
            subst hout
            exact ⟨pd, hne, by simpa using hpd, hdec, rfl, by assumption⟩
          · injection h with h
            subst h
            simp at hout
    · injection h with h
      subst h
      simp at hout

theorem pollLoop_failDecrypt (env : CryptoEnv)
    (provider : Nat → PollResponse) (path : String) (mw iv : Nat) :
    ∀ fuel elapsed k run,
      pollLoop env provider path mw iv elapsed k fuel = some run →
      run.outcome = .failDecrypt →
      ∃ pd, pd ≠ "" ∧ provider (run.polls - 1) = .ok pd ∧
        decrypt_password env pd path = none ∧
        run.decryptAttempts = [(pd, path)] ∧ run.elapsed < mw := by
  intro fuel
  induction fuel with
  | zero =>
    intro elapsed k run h
    simp [pollLoop] at h
  | succ fuel ih =>
    intro elapsed k run h hout
    rw [pollLoop] at h
    split at h
    · split at h
      · injection h with h
        subst h
        simp at hout
      · rename_i pd hpd
        split at h
        · exact ih _ _ _ h hout
        · rename_i hne
          split at h
          · injection h with h
            subst h
            simp at hout
          · rename_i hdec
            injection h with h
            subst h
            exact ⟨pd, hne, by simpa using hpd, hdec, rfl, by assumption⟩
    · injection h with h
      subst h
      simp at hout

theorem pollLoop_empty_steps (env : CryptoEnv)
    (provider : Nat → PollResponse) (path : String) (mw iv : Nat) :
    ∀ d fuel elapsed k,
      (∀ j, k ≤ j → j < k + d → provider j = .ok "") →
      (∀ i, i < d → elapsed + i * iv < mw) →
      d ≤ fuel →
      pollLoop env provider path mw iv elapsed k fuel =
        pollLoop env provider path mw iv (elapsed + d * iv) (k + d)
          (fuel - d) := by
  intro d
  induction d with
  | zero =>
    intro fuel elapsed k _ _ _
    simp
  | succ d ih =>
    intro fuel elapsed k hj hi hf
    cases fuel with
    | zero => omega
    | succ fuel =>
      have h0 : elapsed < mw := by simpa using hi 0 (by omega)
      have hk : provider k = .ok "" := hj k (le_refl k) (by omega)
      have hstep : pollLoop env provider path mw iv elapsed k (fuel + 1) =
          pollLoop env provider path mw iv (elapsed + iv) (k + 1) fuel := by
        rw [pollLoop, if_pos h0, hk]
        simp
      rw [hstep]
      have heq := ih fuel (elapsed + iv) (k + 1)
        (fun j h1 h2 => hj j (by omega) (by omega))
        (fun i hi' => by
          have := hi (i + 1) (by omega)
          have hm : (i + 1) * iv = i * iv + iv := Nat.succ_mul i iv
          linarith)
        (by omega)
      rw [heq]
      have e1 : elapsed + iv + d * iv = elapsed + (d + 1) * iv := by ring
      have e2 : k + 1 + d = k + (d + 1) := by omega
      have e3 : fuel - d = fuel + 1 - (d + 1) := by omega
      rw [e1, e2, e3]

theorem pollLoop_always_empty (env : CryptoEnv)
    (provider : Nat → PollResponse) (path : String) (mw iv : Nat)
    (hiv : 0 < iv) (hp : ∀ j, provider j = .ok "") :
    ∀ fuel elapsed k, mw ≤ elapsed + fuel →
      ∃ run,
        pollLoop env provider path mw iv elapsed k (fuel + 1) = some run ∧
        run.outcome = .failTimeout ∧ mw ≤ run.elapsed ∧ k ≤ run.polls ∧
        run.elapsed = elapsed + (run.polls - k) * iv ∧
        ∀ m, elapsed + m * iv < mw → k + m < run.polls := by
  intro fuel
  induction fuel with
  | zero =>
    intro elapsed k h
    refine ⟨⟨.failTimeout, elapsed, k, []⟩, ?_, rfl, by dsimp only; omega,
      le_refl _, by simp, ?_⟩
    · rw [pollLoop, if_neg (by omega)]
    · intro m hm
      have : elapsed ≤ elapsed + m * iv := Nat.le_add_right _ _
      omega
  | succ fuel ih =>
    intro elapsed k h
    by_cases h0 : elapsed < mw
    · have hstep : pollLoop env provider path mw iv elapsed k (fuel + 2) =
          pollLoop env provider path mw iv (elapsed + iv) (k + 1)
            (fuel + 1) := by
        rw [pollLoop, if_pos h0, hp k]
        simp
      obtain ⟨run, h1, h2, h3, h4, h5, h6⟩ :=
        ih (elapsed + iv) (k + 1) (by omega)
      refine ⟨run, by rw [hstep]; exact h1, h2, h3, by omega, ?_, ?_⟩
      · have hq : run.polls - k = (run.polls - (k + 1)) + 1 := by omega
        rw [hq, Nat.succ_mul]
        omega
      · intro m hm
        cases m with
        | zero => omega
        | succ m =>
          have hm' : elapsed + iv + m * iv < mw := by
            have hmul : (m + 1) * iv = m * iv + iv := Nat.succ_mul m iv
            linarith [hm, hmul.ge]
          have := h6 m hm'
          omega
    · refine ⟨⟨.failTimeout, elapsed, k, []⟩, ?_, rfl, by dsimp only; omega,
        le_refl _, by simp, ?_⟩
      · rw [pollLoop, if_neg h0]
      · intro m hm
        have : elapsed ≤ elapsed + m * iv := Nat.le_add_right _ _
        omega

/-- `decrypt_password` as an `Option.bind` chain, for calculation. -/
theorem decrypt_password_eq_bind (env : CryptoEnv) (c path : String) :
    decrypt_password env c path =
      (env.readKeyFile path).bind fun pem =>
        (env.loadPemPrivateKey pem).bind fun key =>
          (env.b64decode c).bind fun bs =>
            (env.rsaDecryptPKCS1v15 key bs).bind fun ps =>
              env.utf8decode ps := by
  cases h1 : env.readKeyFile path with
  | none => simp [decrypt_password, h1]
  | some pem =>
    cases h2 : env.loadPemPrivateKey pem with
    | none => simp [decrypt_password, h1, h2]
    | some key =>
      cases h3 : env.b64decode c with
      | none => simp [decrypt_password, h1, h2, h3]
      | some bs =>
        cases h4 : env.rsaDecryptPKCS1v15 key bs with
        | none => simp [decrypt_password, h1, h2, h3, h4]
        | some ps => simp [decrypt_password, h1, h2, h3, h4]

/-- Success characterisation of `decrypt_password`: it returns a password
exactly when every pipeline step succeeds. -/
theorem decrypt_password_some_iff (env : CryptoEnv) (c path : String)
    (pwd : String) :
    decrypt_password env c path = some pwd ↔
      ∃ pem key bs ps, env.readKeyFile path = some pem ∧
        env.loadPemPrivateKey pem = some key ∧
        env.b64decode c = some bs ∧
        env.rsaDecryptPKCS1v15 key bs = some ps ∧
        env.utf8decode ps = some pwd := by
  rw [decrypt_password_eq_bind]
  simp only [Option.bind_eq_some]
  constructor
  · rintro ⟨pem, h1, key, h2, bs, h3, ps, h4, h5⟩
    exact ⟨pem, key, bs, ps, h1, h2, h3, h4, h5⟩
  · rintro ⟨pem, key, bs, ps, h1, h2, h3, h4, h5⟩
    exact ⟨pem, h1, key, h2, bs, h3, ps, h4, h5⟩

/-! ## Claim theorems: Password Retrieval Engine -/

/-- **C1.** Every run of `get_instance_password` ends in one of the tagged
outcomes: on success the output is the plaintext password produced by
decryption; otherwise the Python return value is `None` and the exit path
is tagged (with a distinguishing console message) as `failTimeout` — in
which case password material never became available on any poll of the run
and `max_wait` had elapsed — or as `failDecrypt` — in which case material
did become available but could not be decrypted; and the two tags (and
their messages) are distinct. -/
theorem get_instance_password_tagged_output (env : CryptoEnv)
    (provider : Nat → PollResponse) (path : String)
    (max_wait poll_interval fuel : Nat) (run : PwRun)
    (h : get_instance_password env provider path max_wait poll_interval fuel
      = some run) :
    (∀ pwd, run.outcome = .success pwd →
      run.outcome.retval = some pwd ∧
      ∃ pd, pd ≠ "" ∧ provider (run.polls - 1) = .ok pd ∧
        decrypt_password env pd path = some pwd) ∧
    (run.outcome = .failTimeout →
      run.outcome.retval = none ∧
      run.outcome.failureMessage = some "Timeout waiting for password data" ∧
      max_wait ≤ run.elapsed ∧
      ∀ j, j < run.polls → provider j = .ok "") ∧
    (run.outcome = .failDecrypt →
      run.outcome.retval = none ∧
      run.outcome.failureMessage = some "Failed to decrypt password" ∧
      ∃ pd, pd ≠ "" ∧ provider (run.polls - 1) = .ok pd ∧
        decrypt_password env pd path = none) ∧
    PwOutcome.failureMessage .failTimeout ≠
      PwOutcome.failureMessage .failDecrypt := by
  refine ⟨?_, ?_, ?_, by decide⟩
  · intro pwd hout
    obtain ⟨pd, h1, h2, h3, _, _⟩ :=
      pollLoop_success env provider path _ _ _ _ _ _ _ h hout
    exact ⟨by simp [hout, PwOutcome.retval], pd, h1, h2, h3⟩
  · intro hout
    obtain ⟨h1, _, h3⟩ :=
      pollLoop_timeout env provider path _ _ _ _ _ _ h hout
    exact ⟨by simp [hout, PwOutcome.retval],
      by simp [hout, PwOutcome.failureMessage], h1,
      fun j hj => h3 j (Nat.zero_le _) hj⟩
  · intro hout
    obtain ⟨pd, h1, h2, h3, _, _⟩ :=
      pollLoop_failDecrypt env provider path _ _ _ _ _ _ h hout
    exact ⟨by simp [hout, PwOutcome.retval],
      by simp [hout, PwOutcome.failureMessage], pd, h1, h2, h3⟩

/-- Witness for C1 at a concrete provider whose first poll already returns
decryptable material. -/
theorem get_instance_password_tagged_output_witness :
    (get_instance_password testEnv (fun _ => .ok "QUJD") "k.pem" 300 10 2 =
      some ⟨.success "hi", 0, 1, [("QUJD", "k.pem")]⟩) ∧
    (PwOutcome.success "hi").retval = some "hi" := by
  have h : get_instance_password testEnv (fun _ => .ok "QUJD") "k.pem"
      300 10 2 = some ⟨.success "hi", 0, 1, [("QUJD", "k.pem")]⟩ := by
    decide
  refine ⟨h, ?_⟩
  exact ((get_instance_password_tagged_output testEnv (fun _ => .ok "QUJD")
    "k.pem" 300 10 2 _ h).1 "hi" rfl).1

/-- **C2.** Decryption base64-decodes the ciphertext, RSA-decrypts it with
PKCS#1 v1.5 padding under the key loaded from the supplied file, and
UTF-8-decodes the plaintext — it succeeds exactly when every step
succeeds; each single-step failure makes the whole operation fail; and a
run of the retrieval operation attempts decryption at most once, always
with the supplied key path (no retry under a different key). -/
theorem decrypt_password_pipeline (env : CryptoEnv) (c path : String) :
    (∀ pwd, decrypt_password env c path = some pwd ↔
      ∃ pem key bs ps, env.readKeyFile path = some pem ∧
        env.loadPemPrivateKey pem = some key ∧
        env.b64decode c = some bs ∧
        env.rsaDecryptPKCS1v15 key bs = some ps ∧
        env.utf8decode ps = some pwd) ∧
    (env.b64decode c = none → decrypt_password env c path = none) ∧
    (∀ pem key bs, env.readKeyFile path = some pem →
      env.loadPemPrivateKey pem = some key → env.b64decode c = some bs →
      env.rsaDecryptPKCS1v15 key bs = none →
      decrypt_password env c path = none) ∧
    (∀ pem key bs ps, env.readKeyFile path = some pem →
      env.loadPemPrivateKey pem = some key → env.b64decode c = some bs →
      env.rsaDecryptPKCS1v15 key bs = some ps → env.utf8decode ps = none →
      decrypt_password env c path = none) ∧
    (∀ provider mw iv fuel run,
      get_instance_password env provider path mw iv fuel = some run →
      run.decryptAttempts.length ≤ 1 ∧
        ∀ a ∈ run.decryptAttempts, a.2 = path) := by
  refine ⟨decrypt_password_some_iff env c path, ?_, ?_, ?_, ?_⟩
  · intro hb
    cases hd : decrypt_password env c path with
    | none => rfl
    | some pwd =>
      obtain ⟨pem, key, bs, ps, g1, g2, g3, g4, g5⟩ :=
        (decrypt_password_some_iff env c path pwd).1 hd
      rw [hb] at g3
      simp at g3
  · intro pem key bs h1 h2 h3 h4
    cases hd : decrypt_password env c path with
    | none => rfl
    | some pwd =>
      obtain ⟨pem', key', bs', ps', g1, g2, g3, g4, g5⟩ :=
        (decrypt_password_some_iff env c path pwd).1 hd
      rw [h1] at g1
      injection g1 with e1
      subst e1
      rw [h2] at g2
      injection g2 with e2
      subst e2
      rw [h3] at g3
      injection g3 with e3
      subst e3
      rw [h4] at g4
      simp at g4
  · intro pem key bs ps h1 h2 h3 h4 h5
    cases hd : decrypt_password env c path with
    | none => rfl
    | some pwd =>
      obtain ⟨pem', key', bs', ps', g1, g2, g3, g4, g5⟩ :=
        (decrypt_password_some_iff env c path pwd).1 hd
      rw [h1] at g1
      injection g1 with e1
      subst e1
      rw [h2] at g2
      injection g2 with e2
      subst e2
      rw [h3] at g3
      injection g3 with e3
      subst e3
      rw [h4] at g4
      injection g4 with e4
      subst e4
      rw [h5] at g5
      simp at g5
  · intro provider mw iv fuel run h
    exact pollLoop_decryptAttempts env provider path mw iv fuel 0 0 run h

/-- Witness for C2: a concrete ciphertext that fails base64 decoding makes
the whole decryption fail. -/
theorem decrypt_password_pipeline_witness :
    testEnv.b64decode "%%%" = none ∧
    decrypt_password testEnv "%%%" "k.pem" = none := by
  have hb : testEnv.b64decode "%%%" = none := by decide
  exact ⟨hb, (decrypt_password_pipeline testEnv "%%%" "k.pem").2.1 hb⟩

/-- **C3.** Against a provider that returns empty password material on
every poll, `get_instance_password` returns the `failTimeout` outcome at or
after `max_wait` seconds of elapsed time, never before, and keeps polling
as long as the elapsed time is below `max_wait`. -/
theorem timeout_at_or_after_max_wait (env : CryptoEnv)
    (provider : Nat → PollResponse) (path : String)
    (max_wait poll_interval fuel : Nat)
    (hp : ∀ j, provider j = .ok "")
    (hiv : 0 < poll_interval) (hf : max_wait < fuel) :
    ∃ run,
      get_instance_password env provider path max_wait poll_interval fuel =
        some run ∧
      run.outcome = .failTimeout ∧ run.outcome.retval = none ∧
      max_wait ≤ run.elapsed ∧
      run.elapsed = run.polls * poll_interval ∧
      ∀ m, m * poll_interval < max_wait → m < run.polls := by
  obtain ⟨fuel, rfl⟩ : ∃ f, fuel = f + 1 := ⟨fuel - 1, by omega⟩
  obtain ⟨run, h1, h2, h3, h4, h5, h6⟩ :=
    pollLoop_always_empty env provider path max_wait poll_interval hiv hp
      fuel 0 0 (by omega)
  exact ⟨run, h1, h2, by simp [h2, PwOutcome.retval], h3, by simpa using h5,
    fun m hm => by simpa using h6 m (by simpa using hm)⟩

/-- Witness for C3 at `max_wait = 25`, `poll_interval = 10`: the timeout
outcome appears after three polls, 30 seconds in. -/
theorem timeout_at_or_after_max_wait_witness :
    (0 < 10 ∧ 25 < 26) ∧
    ∃ run,
      get_instance_password testEnv (fun _ => .ok "") "k.pem" 25 10 26 =
        some run ∧
      run.outcome = .failTimeout ∧ run.outcome.retval = none ∧
      25 ≤ run.elapsed ∧ run.elapsed = run.polls * 10 ∧
      ∀ m, m * 10 < 25 → m < run.polls := by
  refine ⟨by decide, ?_⟩
  exact timeout_at_or_after_max_wait testEnv (fun _ => .ok "") "k.pem"
    25 10 26 (fun _ => rfl) (by decide) (by decide)

/-- **C9.** If the provider's password query raises an exception on a poll
reached before `max_wait` (all earlier polls having returned empty
material), `get_instance_password` aborts on that very poll with the
provider-error outcome (the return value is `None`), issuing no further
polls, instead of treating the error as still-waiting and polling on until
`max_wait`. -/
theorem provider_error_aborts_immediately (env : CryptoEnv)
    (provider : Nat → PollResponse) (path : String)
    (max_wait poll_interval fuel k : Nat) (msg : String)
    (hk : ∀ j, j < k → provider j = .ok "")
    (he : provider k = .error msg)
    (hw : k * poll_interval < max_wait)
    (hf : k < fuel) :
    get_instance_password env provider path max_wait poll_interval fuel =
      some ⟨.failProviderError msg, k * poll_interval, k + 1, []⟩ ∧
    (PwOutcome.failProviderError msg).retval = none := by
  refine ⟨?_, rfl⟩
  have hstep := pollLoop_empty_steps env provider path max_wait
    poll_interval k fuel 0 0
    (fun j _ hj2 => hk j (by omega))
    (fun i hi => by
      have hmono : i * poll_interval ≤ k * poll_interval :=
        Nat.mul_le_mul_right _ (le_of_lt hi)
      omega)
    (by omega)
  show pollLoop env provider path max_wait poll_interval 0 0 fuel = _
  rw [hstep]
  obtain ⟨f, hfeq⟩ : ∃ f, fuel - k = f + 1 := ⟨fuel - k - 1, by omega⟩
  rw [hfeq, pollLoop, if_pos (by simpa using hw)]
  simp only [Nat.zero_add, he]

/-- Witness for C9: a provider whose very first poll raises aborts the run
at once. -/
theorem provider_error_aborts_immediately_witness :
    (0 * 10 < 300 ∧ 0 < 1) ∧
    get_instance_password testEnv (fun _ => .error "boom") "k.pem"
      300 10 1 =
      some ⟨.failProviderError "boom", 0 * 10, 0 + 1, []⟩ := by
  refine ⟨by decide, ?_⟩
  exact (provider_error_aborts_immediately testEnv (fun _ => .error "boom")
    "k.pem" 300 10 1 0 "boom" (fun j hj => absurd hj (by omega)) rfl
    (by decide) (by decide)).1

/-! ## Lemmas about the stack-deletion wait loop -/

theorem deletionLoop_deleted (provider : Nat → DescribeResponse)
    (events : List String) (timeout : Nat) :
    ∀ fuel elapsed k run,
      deletionLoop provider events timeout elapsed k fuel = some run →
      run.outcome = .deleted →
      ∃ msg, provider (run.polls - 1) = .clientError msg ∧
        containsSubstr msg "does not exist" = true := by
  intro fuel
  induction fuel with
  | zero =>
    intro elapsed k run h
    simp [deletionLoop] at h
  | succ fuel ih =>
    intro elapsed k run h hout
    rw [deletionLoop] at h
    split at h
    · split at h
      · split at h
        · injection h with h
          subst h
          simp at hout
        · exact ih _ _ _ h hout
      · rename_i msg hmsg
        split at h
        · rename_i hsub
          injection h with h
          subst h
          exact ⟨msg, by simpa using hmsg, hsub⟩
        · injection h with h
          subst h
          simp at hout
      · injection h with h
        subst h
        simp at hout
    · injection h with h
      subst h
      simp at hout

theorem deletionLoop_deleteFailed (provider : Nat → DescribeResponse)
    (events : List String) (timeout : Nat) :
    ∀ fuel elapsed k run ev,
      deletionLoop provider events timeout elapsed k fuel = some run →
      run.outcome = .deleteFailed ev →
      ev = print_stack_events events 10 ∧
        provider (run.polls - 1) = .status "DELETE_FAILED" ∧
        run.elapsed < timeout := by
  intro fuel
  induction fuel with
  | zero =>
    intro elapsed k run ev h
    simp [deletionLoop] at h
  | succ fuel ih =>
    intro elapsed k run ev h hout
    rw [deletionLoop] at h
    split at h
    · split at h
      · rename_i s hs
        split at h
        · rename_i hsd
          injection h with h
          subst h
          dsimp only at hout ⊢
          injection hout with hout
          subst hout
          refine ⟨rfl, ?_, by assumption⟩
          rw [Nat.add_sub_cancel, hs, hsd]
        · exact ih _ _ _ _ h hout
      · split at h <;>
          (injection h with h; subst h; simp at hout)
      · injection h with h
        subst h
        simp at hout
    · injection h with h
      subst h
      simp at hout

theorem deletionLoop_progress_steps (provider : Nat → DescribeResponse)
    (events : List String) (timeout : Nat) :
    ∀ d fuel elapsed k,
      (∀ j, k ≤ j → j < k + d →
        ∃ s, provider j = .status s ∧ s ≠ "DELETE_FAILED") →
      (∀ i, i < d → elapsed + i * 10 < timeout) →
      d ≤ fuel →
      deletionLoop provider events timeout elapsed k fuel =
        deletionLoop provider events timeout (elapsed + d * 10) (k + d)
          (fuel - d) := by
  intro d
  induction d with
  | zero =>
    intro fuel elapsed k _ _ _
    simp
  | succ d ih =>
    intro fuel elapsed k hj hi hf
    cases fuel with
    | zero => omega
    | succ fuel =>
      have h0 : elapsed < timeout := by simpa using hi 0 (by omega)
      obtain ⟨s, hks, hsne⟩ := hj k (le_refl k) (by omega)
      have hstep : deletionLoop provider events timeout elapsed k (fuel + 1)
          = deletionLoop provider events timeout (elapsed + 10) (k + 1)
            fuel := by
        rw [deletionLoop, if_pos h0, hks]
        simp [hsne]
      rw [hstep]
      have heq := ih fuel (elapsed + 10) (k + 1)
        (fun j h1 h2 => hj j (by omega) (by omega))
        (fun i hi' => by
          have := hi (i + 1) (by omega)
          have hm : (i + 1) * 10 = i * 10 + 10 := Nat.succ_mul i 10
          omega)
        (by omega)
      rw [heq]
      have e1 : elapsed + 10 + d * 10 = elapsed + (d + 1) * 10 := by ring
      have e2 : k + 1 + d = k + (d + 1) := by omega
      have e3 : fuel - d = fuel + 1 - (d + 1) := by omega
      rw [e1, e2, e3]

/-! ## Claim theorem: stack deletion -/

/-- **C6.** In the stack-deletion wait loop, terminal success is detected
solely as a not-found `ClientError` from the describe call — never as a
status enum value: a run that returns the `deleted` outcome saw a
`does not exist` `ClientError`, a provider that only ever returns statuses
never yields `True`, and a provider moving directly from
`DELETE_IN_PROGRESS` to a not-found describe error yields success on that
very poll; observing status `DELETE_FAILED` yields failure after surfacing
the 10 most recent stack events. -/
theorem wait_for_stack_deletion_exit_detection
    (provider : Nat → DescribeResponse) (events : List String)
    (timeout fuel : Nat) (run : DelRun)
    (h : wait_for_stack_deletion provider events timeout fuel = some run) :
    (run.outcome = .deleted →
      run.outcome.retval = true ∧
      ∃ msg, provider (run.polls - 1) = .clientError msg ∧
        containsSubstr msg "does not exist" = true) ∧
    ((∀ k, ∃ s, provider k = .status s) → run.outcome.retval = false) ∧
    (∀ ev, run.outcome = .deleteFailed ev →
      run.outcome.retval = false ∧ ev = print_stack_events events 10 ∧
      provider (run.polls - 1) = .status "DELETE_FAILED") ∧
    (∀ n msg, (∀ j, j < n → provider j = .status "DELETE_IN_PROGRESS") →
      provider n = .clientError msg →
      containsSubstr msg "does not exist" = true →
      n * 10 < timeout → n < fuel →
      run.outcome = .deleted ∧ run.polls = n + 1) := by
  refine ⟨?_, ?_, ?_, ?_⟩
  · intro hout
    obtain ⟨msg, h1, h2⟩ :=
      deletionLoop_deleted provider events timeout fuel 0 0 run h hout
    exact ⟨by simp [hout, DelOutcome.retval], msg, h1, h2⟩
  · intro hs
    cases hout : run.outcome with
    | deleted =>
      exfalso
      obtain ⟨msg, h1, _⟩ :=
        deletionLoop_deleted provider events timeout fuel 0 0 run h hout
      obtain ⟨s, hsk⟩ := hs (run.polls - 1)
      rw [hsk] at h1
      cases h1
    | deleteFailed ev => rfl
    | describeError msg => rfl
    | timedOut => rfl
  · intro ev hout
    obtain ⟨h1, h2, _⟩ :=
      deletionLoop_deleteFailed provider events timeout fuel 0 0 run ev h
        hout
    exact ⟨by simp [hout, DelOutcome.retval], h1, h2⟩
  · intro n msg hprog he hsub hw hf
    have hstep := deletionLoop_progress_steps provider events timeout n fuel
      0 0
      (fun j _ hj2 =>
        ⟨"DELETE_IN_PROGRESS", hprog j (by omega), by decide⟩)
      (fun i hi => by
        have hmono : i * 10 ≤ n * 10 := Nat.mul_le_mul_right _ (le_of_lt hi)
        omega)
      (by omega)
    have hrun : wait_for_stack_deletion provider events timeout fuel =
        some ⟨.deleted, n * 10, n + 1⟩ := by
      show deletionLoop provider events timeout 0 0 fuel = _
      rw [hstep]
      obtain ⟨f, hfeq⟩ : ∃ f, fuel - n = f + 1 := ⟨fuel - n - 1, by omega⟩
      rw [hfeq, deletionLoop, if_pos (by simpa using hw)]
      simp only [Nat.zero_add, he]
      rw [if_pos hsub]
    rw [h] at hrun
    injection hrun with hrun
    rw [hrun]
    exact ⟨rfl, rfl⟩

/-- Witness for C6: a provider whose stack goes from `DELETE_IN_PROGRESS`
directly to a not-found describe error is treated as success. -/
theorem wait_for_stack_deletion_exit_detection_witness :
    (wait_for_stack_deletion
      (fun k => if k = 0 then .status "DELETE_IN_PROGRESS"
        else .clientError "Stack with id demo does not exist")
      ["ev1"] 600 3 = some ⟨.deleted, 10, 2⟩) ∧
    DelOutcome.deleted = DelOutcome.deleted ∧ (2 : Nat) = 1 + 1 := by
  have h : wait_for_stack_deletion
      (fun k => if k = 0 then .status "DELETE_IN_PROGRESS"
        else .clientError "Stack with id demo does not exist")
      ["ev1"] 600 3 = some ⟨.deleted, 10, 2⟩ := by decide
  refine ⟨h, ?_, ?_⟩
  · exact ((wait_for_stack_deletion_exit_detection _ ["ev1"] 600 3 _
      h).2.2.2 1 "Stack with id demo does not exist"
      (fun j hj => by
        have hj0 : j = 0 := by omega
        subst hj0
        rfl) rfl (by decide)
      (by decide) (by decide)).1 ▸ rfl
  · exact ((wait_for_stack_deletion_exit_detection _ ["ev1"] 600 3 _
      h).2.2.2 1 "Stack with id demo does not exist"
      (fun j hj => by
        have hj0 : j = 0 := by omega
        subst hj0
        rfl) rfl (by decide)
      (by decide) (by decide)).2

/-! ## Claim theorems: command layer and listing -/

/-- **C7.** Calling `start` on an instance already `running` returns
success without issuing a provider start call, and calling `stop` on an
instance already `stopped` returns success without issuing a provider stop
call; a state incompatible with the requested transition (any state other
than `stopped`/`stopping` for start, any state other than
`running`/`pending` for stop — e.g. stop while `shutting-down`) makes the
command fail, again without a provider call. -/
theorem start_stop_idempotent_short_circuit (callOk : Bool) :
    start_state_check "running" callOk = (.success, false) ∧
    stop_state_check "stopped" callOk = (.success, false) ∧
    (∀ s, s ≠ "running" → s ≠ "stopped" → s ≠ "stopping" →
      start_state_check s callOk = (.failure, false)) ∧
    (∀ s, s ≠ "stopped" → s ≠ "running" → s ≠ "pending" →
      stop_state_check s callOk = (.failure, false)) := by
  refine ⟨by simp [start_state_check], by simp [stop_state_check], ?_, ?_⟩
  · intro s h1 h2 h3
    unfold start_state_check
    rw [if_neg h1, if_pos (fun hor => hor.elim h2 h3)]
  · intro s h1 h2 h3
    unfold stop_state_check
    rw [if_neg h1, if_pos (fun hor => hor.elim h2 h3)]

/-- Witness for C7: stopping an instance that is `shutting-down`
(terminating) fails without a provider call. -/
theorem start_stop_idempotent_short_circuit_witness :
    ("shutting-down" ≠ "stopped" ∧ "shutting-down" ≠ "running" ∧
      "shutting-down" ≠ "pending") ∧
    start_state_check "running" true = (.success, false) ∧
    stop_state_check "stopped" true = (.success, false) ∧
    stop_state_check "shutting-down" true = (.failure, false) := by
  have t := start_stop_idempotent_short_circuit true
  exact ⟨by decide, t.1, t.2.1,
    t.2.2.2 "shutting-down" (by decide) (by decide) (by decide)⟩

/-- `probe_regions` returns the first list element satisfying the probe:
the element is found, and everything before it in the list is not. -/
theorem probe_regions_first (found : String → Bool) :
    ∀ l r, probe_regions found l = some r →
      found r = true ∧
      ∃ l1 l2, l = l1 ++ r :: l2 ∧ ∀ x ∈ l1, found x = false := by
  intro l
  induction l with
  | nil =>
    intro r h
    simp [probe_regions] at h
  | cons a as ih =>
    intro r h
    rw [probe_regions] at h
    by_cases ha : found a = true
    · rw [if_pos ha] at h
      injection h with h
      subst h
      exact ⟨ha, [], as, rfl, by simp⟩
    · rw [if_neg ha] at h
      obtain ⟨hr, l1, l2, heq, hall⟩ := ih r h
      refine ⟨hr, a :: l1, l2, by rw [heq]; rfl, ?_⟩
      intro x hx
      rcases List.mem_cons.1 hx with rfl | hx'
      · exact Bool.not_eq_true _ ▸ by simpa using ha
      · exact hall x hx'

/-- `probe_regions` fails exactly when no list element satisfies the
probe. -/
theorem probe_regions_eq_none (found : String → Bool) :
    ∀ l, probe_regions found l = none ↔ ∀ x ∈ l, found x = false := by
  intro l
  induction l with
  | nil => simp [probe_regions]
  | cons a as ih =>
    rw [probe_regions]
    by_cases ha : found a = true
    · simp [ha]
    · simp only [if_neg ha, ih]
      constructor
      · intro hall x hx
        rcases List.mem_cons.1 hx with rfl | hx'
        · simpa using ha
        · exact hall x hx'
      · intro hall x hx
        exact hall x (List.mem_cons_of_mem a hx)

/-- **C8.** When no region is supplied (but an instance id is), the
commands resolve the region by probing the fixed ordered list
`us-east-1, us-west-2, eu-west-1, ap-southeast-1`, querying each in order
until the instance is found: the resolved region is the first of the list
where the lookup succeeds, and resolution fails exactly when no region of
the list contains the instance; a supplied region is used as is. -/
theorem region_resolution_fixed_probe (found : String → Bool) :
    resolve_region none found =
      probe_regions found
        ["us-east-1", "us-west-2", "eu-west-1", "ap-southeast-1"] ∧
    (∀ r, resolve_region none found = some r →
      found r = true ∧
      ∃ l1 l2, default_region_probe_list = l1 ++ r :: l2 ∧
        ∀ x ∈ l1, found x = false) ∧
    (resolve_region none found = none ↔
      ∀ r ∈ default_region_probe_list, found r = false) ∧
    (∀ r, resolve_region (some r) found = some r) := by
  refine ⟨rfl, ?_, ?_, fun r => rfl⟩
  · intro r h
    exact probe_regions_first found default_region_probe_list r h
  · exact probe_regions_eq_none found default_region_probe_list

/-- Witness for C8: an instance living in `eu-west-1` is found there, after
the two earlier regions of the fixed list fail. -/
theorem region_resolution_fixed_probe_witness :
    (resolve_region none
      (fun r => if r = "eu-west-1" then true else false) =
        some "eu-west-1") ∧
    (fun r => if r = "eu-west-1" then true else false) "eu-west-1"
      = true := by
  have h : resolve_region none
      (fun r => if r = "eu-west-1" then true else false) =
        some "eu-west-1" := by decide
  exact ⟨h, (((region_resolution_fixed_probe
    (fun r => if r = "eu-west-1" then true else false)).2.1)
    "eu-west-1" h).1⟩

/-- **C10.** Every instance returned by `list_managed_instances` carries
the tag `ManagedBy=winaws` and is in one of the states `pending`,
`running`, `stopping` or `stopped`; in particular an instance in the
`shutting-down` state — not only an already-terminated one — is excluded
from the listing. -/
theorem list_managed_instances_tag_and_states (all : List Ec2Instance) :
    (∀ inst ∈ list_managed_instances all,
      (∃ t ∈ inst.tags, t.1 = "ManagedBy" ∧ t.2 = "winaws") ∧
      inst.state ∈ ["pending", "running", "stopping", "stopped"] ∧
      inst.state ≠ "shutting-down" ∧ inst.state ≠ "terminated") ∧
    (∀ inst : Ec2Instance, inst.state = "shutting-down" →
      inst ∉ list_managed_instances all) := by
  have key : ∀ inst ∈ list_managed_instances all,
      (∃ t ∈ inst.tags, t.1 = "ManagedBy" ∧ t.2 = "winaws") ∧
      inst.state ∈ ["pending", "running", "stopping", "stopped"] := by
    intro inst h
    unfold list_managed_instances describe_instances_filtered at h
    rw [List.mem_filter] at h
    obtain ⟨_, hf⟩ := h
    simp only [List.all_cons, List.all_nil, Bool.and_eq_true,
      Bool.and_true] at hf
    obtain ⟨htag, hstate⟩ := hf
    have e1 : matchesFilter inst ("tag:ManagedBy", ["winaws"]) =
        inst.tags.any
          (fun t => t.1 = "ManagedBy" && ["winaws"].contains t.2) := by
      unfold matchesFilter
      rw [if_neg (by decide), if_pos rfl]
    have e2 : matchesFilter inst
        ("instance-state-name",
          ["pending", "running", "stopping", "stopped"]) =
        (["pending", "running", "stopping", "stopped"] :
          List String).contains inst.state := by
      unfold matchesFilter
      rw [if_pos rfl]
    rw [e1] at htag
    rw [e2] at hstate
    constructor
    · rw [List.any_eq_true] at htag
      obtain ⟨t, ht, htt⟩ := htag
      rw [Bool.and_eq_true] at htt
      refine ⟨t, ht, by simpa using htt.1, ?_⟩
      have := htt.2
      simp [List.contains] at this
      exact this
    · have := hstate
      simp [List.contains] at this
      simpa using this
  constructor
  · intro inst h
    obtain ⟨h1, h2⟩ := key inst h
    refine ⟨h1, h2, ?_, ?_⟩
    · intro hsd
      rw [hsd] at h2
      simp at h2
    · intro hsd
      rw [hsd] at h2
      simp at h2
  · intro inst hsd h
    obtain ⟨_, h2⟩ := key inst h
    rw [hsd] at h2
    simp at h2

/-- Witness for C10: a running tagged instance is listed, and the theorem
applies to it; a `shutting-down` instance is not listed. -/
theorem list_managed_instances_tag_and_states_witness :
    ((⟨"i-1", "running", [("ManagedBy", "winaws")]⟩ : Ec2Instance) ∈
      list_managed_instances
        [⟨"i-1", "running", [("ManagedBy", "winaws")]⟩,
         ⟨"i-2", "shutting-down", [("ManagedBy", "winaws")]⟩]) ∧
    (∃ t ∈ [("ManagedBy", "winaws")],
      t.1 = "ManagedBy" ∧ t.2 = "winaws") ∧
    ((⟨"i-2", "shutting-down", [("ManagedBy", "winaws")]⟩ : Ec2Instance) ∉
      list_managed_instances
        [⟨"i-1", "running", [("ManagedBy", "winaws")]⟩,
         ⟨"i-2", "shutting-down", [("ManagedBy", "winaws")]⟩]) := by
  have hmem : (⟨"i-1", "running", [("ManagedBy", "winaws")]⟩ :
      Ec2Instance) ∈
      list_managed_instances
        [⟨"i-1", "running", [("ManagedBy", "winaws")]⟩,
         ⟨"i-2", "shutting-down", [("ManagedBy", "winaws")]⟩] := by
    decide
  have t := list_managed_instances_tag_and_states
    [⟨"i-1", "running", [("ManagedBy", "winaws")]⟩,
     ⟨"i-2", "shutting-down", [("ManagedBy", "winaws")]⟩]
  exact ⟨hmem, (t.1 _ hmem).1, t.2 _ rfl⟩

/-! ## Claim theorems: Key Material Manager -/

/-- **C4.** When the local key file exists but the provider registration
does not, `create_key_pair` deletes the stale local file and creates a
fresh pair: after a successful call both the local file and the provider
registration exist; and (for every starting state and failure pattern)
`create_key_pair` never returns a path while the provider registration is
unconfirmed — whenever it returns a path, the final state has both the
registration and the local file. -/
theorem create_key_pair_reconciliation (key_name : String) (st : KpState)
    (fail : KpFailure) :
    (st.localExists = true → st.awsRegistered = false →
      fail = .noFailure →
      (create_key_pair key_name st fail).result =
        some (get_key_path key_name) ∧
      (create_key_pair key_name st fail).final = ⟨true, true⟩ ∧
      (create_key_pair key_name st fail).actions =
        [.describeAws, .unlinkLocal, .deleteAws, .createAws,
          .writeLocal]) ∧
    (∀ p, (create_key_pair key_name st fail).result = some p →
      (create_key_pair key_name st fail).final.awsRegistered = true ∧
      (create_key_pair key_name st fail).final.localExists = true) := by
  obtain ⟨l, a⟩ := st
  constructor
  · intro hl ha hf
    subst hf
    dsimp only at hl ha
    subst hl
    subst ha
    refine ⟨rfl, rfl, rfl⟩
  · intro p hp
    cases l <;> cases a <;> cases fail <;>
      simp_all [create_key_pair, create_key_pair_fresh]

/-- Witness for C4: starting from a stale local file with no provider
registration, a failure-free call recreates both sides. -/
theorem create_key_pair_reconciliation_witness :
    ((true = true ∧ false = false) ∧
      (create_key_pair "winaws-demo" ⟨true, false⟩ .noFailure).result =
        some (get_key_path "winaws-demo")) ∧
    (create_key_pair "winaws-demo" ⟨true, false⟩ .noFailure).final =
      ⟨true, true⟩ ∧
    (create_key_pair "winaws-demo" ⟨true, false⟩ .noFailure).actions =
      [.describeAws, .unlinkLocal, .deleteAws, .createAws, .writeLocal] := by
  have t := (create_key_pair_reconciliation "winaws-demo" ⟨true, false⟩
    .noFailure).1 rfl rfl rfl
  exact ⟨⟨⟨rfl, rfl⟩, t.1⟩, t.2.1, t.2.2⟩

/-- **C5 counterexample.** With the provider registration present and no
local file, `create_key_pair` does not behave as an explicit failure: it
silently proceeds, deleting the provider-side key and recreating a fresh
pair, and returns a path. -/
theorem create_key_pair_no_local_file_not_failure :
    (create_key_pair "winaws-demo" ⟨false, true⟩ .noFailure).result =
      some (get_key_path "winaws-demo") ∧
    (create_key_pair "winaws-demo" ⟨false, true⟩ .noFailure).result ≠
      none ∧
    (create_key_pair "winaws-demo" ⟨false, true⟩ .noFailure).actions =
      [.deleteAws, .createAws, .writeLocal] := by
  decide

/-- **C5 (amended).** When the provider-side registration exists but the
local private-key file does not, `create_key_pair` does not reuse the
registration and does not fail: it deletes the provider-side key and,
absent failures, creates a fresh pair (new registration and new local
file); the explicit failure requiring the local file lives in the
`password` command, whose key lookup exits with an error when no key file
exists. -/
theorem create_key_pair_no_local_recreates (key_name : String)
    (fail : KpFailure) :
    (KpAction.describeAws ∉
      (create_key_pair key_name ⟨false, true⟩ fail).actions) ∧
    ((create_key_pair key_name ⟨false, true⟩ fail).final.awsRegistered =
        true →
      (create_key_pair key_name ⟨false, true⟩ fail).actions.head? =
        some .deleteAws) ∧
    (fail = .noFailure →
      (create_key_pair key_name ⟨false, true⟩ fail).result =
        some (get_key_path key_name) ∧
      (create_key_pair key_name ⟨false, true⟩ fail).final =
        ⟨true, true⟩) ∧
    (∀ fileExists : String → Bool, ∀ iname kname : String,
      (∀ p, fileExists p = false) →
      password_key_lookup fileExists iname kname = none) := by
  refine ⟨?_, ?_, ?_, ?_⟩
  · cases fail <;> simp [create_key_pair, create_key_pair_fresh]
  · cases fail <;> intro h <;>
      simp [create_key_pair, create_key_pair_fresh]
  · intro hf
    subst hf
    exact ⟨rfl, rfl⟩
  · intro fileExists iname kname hall
    simp [password_key_lookup, hall]

/-- Witness for C5 (amended): concrete key name, failure-free run, and a
filesystem with no key files. -/
theorem create_key_pair_no_local_recreates_witness :
    ((create_key_pair "winaws-demo" ⟨false, true⟩ .noFailure).result =
      some (get_key_path "winaws-demo") ∧
     (create_key_pair "winaws-demo" ⟨false, true⟩
       .noFailure).final = ⟨true, true⟩) ∧
    password_key_lookup (fun _ => false) "demo" "winaws-demo" = none := by
  have t := create_key_pair_no_local_recreates "winaws-demo" .noFailure
  exact ⟨t.2.2.1 rfl, t.2.2.2 (fun _ => false) "demo" "winaws-demo"
    (fun _ => rfl)⟩

end WinAws
